import Mathlib

/-!
Shallow embedding of `node.py` from the comfyui-replicate repository.

The file models the pure data transformations of the node module:
array-input coercion, falsey-optional pruning, the audio data-URI
encoder, the image / audio / SVG response handlers, the output-shaping
step of the run entry point, the changed-probe, the schema-directory
registry builder and the process-wide registry cache accessor.
External library behaviour (the Python `float` builtin, media codecs,
the HTTP client, the remote API and the wall clock) is embedded as
explicit function parameters or as a simplified executable model, as
noted at each definition.
-/

set_option autoImplicit false

namespace ComfyReplicate

/-- Model of a Python runtime value as it appears in a node's keyword
arguments: strings, numbers (floats modelled as rationals, since no
arithmetic is performed on them), booleans, lists, torch tensors
(modelled by their shape together with their Python truthiness), the
ComfyUI audio dict `\x7bwaveform, sample_rate\x7d` (waveform modelled by its
shape) and `None`. -/
inductive Val where
  | str (s : String)
  | num (q : Rat)
  | bool (b : Bool)
  | list (xs : List Val)
  | tensor (shape : List Nat) (truthy : Bool)
  | audio (waveform : List Nat) (sampleRate : Nat)
  | none

/-- Python truthiness (`bool(v)`): empty string, zero, `False`, empty
list and `None` are falsey; the tensor case carries its truthiness as
data; the audio dict always has two keys, hence is truthy. -/
def pyTruthy : Val → Bool
  | .str s => !(s = "")
  | .num q => !(q = 0)
  | .bool b => b
  | .list xs => !xs.isEmpty
  | .tensor _ t => t
  | .audio _ _ => true
  | .none => false

/-- `isinstance(v, torch.Tensor)`. -/
def isTensor : Val → Bool
  | .tensor _ _ => true
  | _ => false

/-- `isinstance(v, str)`. -/
def isStr : Val → Bool
  | .str _ => true
  | _ => false

/-- `isinstance(v, list)`. -/
def isList : Val → Bool
  | .list _ => true
  | _ => false

/-- Keyword arguments: a Python dict modelled as an association list
(first occurrence of a key is the binding; the code builds these from
actual dicts, whose keys are unique). -/
abbrev Kwargs := List (String × Val)

/-- Dict lookup `kwargs[k]` / `kwargs.get(k)`: first binding of `k`. -/
def lookupKey (k : String) : Kwargs → Option Val
  | [] => Option.none
  | (k1, v) :: rest => if k1 = k then some v else lookupKey k rest

/-- Numeric value of a (possibly empty) list of decimal digits. -/
def digitsNum (cs : List Char) : Nat :=
  cs.foldl (fun a c => a * 10 + (c.toNat - 48)) 0

/-- Split a character list at the first character satisfying `p`,
returning the part before it and, when found, the part after it. -/
def splitAtChar (p : Char → Bool) : List Char → List Char × Option (List Char)
  | [] => ([], Option.none)
  | c :: rest =>
    if p c then ([], some rest)
    else
      let r := splitAtChar p rest
      (c :: r.1, r.2)

/-- Python `s.split(sep)` on character lists: every occurrence of the
separator starts a new group, the empty string yields one empty group. -/
def splitChars (sep : Char) : List Char → List (List Char)
  | [] => [[]]
  | c :: rest =>
    let r := splitChars sep rest
    if c = sep then [] :: r
    else
      match r with
      | [] => [[c]]
      | g :: gs => (c :: g) :: gs

/-- Python `s.split(sep)` as a `String` operation. -/
def pySplit (s : String) (sep : Char) : List String :=
  (splitChars sep s.toList).map (fun g => String.mk g)

/-- Python `s.strip()`: surrounding whitespace removed. -/
def trimChars (cs : List Char) : List Char :=
  ((cs.dropWhile Char.isWhitespace).reverse.dropWhile Char.isWhitespace).reverse

/-- Mantissa of a Python float literal: `digits`, `digits.digits`,
`.digits` or `digits.` (at least one digit overall).  Returned as the
value of the digit string with the dot removed, paired with the number
of fractional digits. -/
def parseMantissa (cs : List Char) : Option (Nat × Nat) :=
  let r := splitAtChar (fun c => c = '.') cs
  match r.2 with
  | Option.none =>
    if cs ≠ [] ∧ cs.all Char.isDigit then some (digitsNum cs, 0) else Option.none
  | some fp =>
    if (r.1 ≠ [] ∨ fp ≠ []) ∧ r.1.all Char.isDigit ∧ fp.all Char.isDigit then
      some (digitsNum (r.1 ++ fp), fp.length)
    else Option.none

/-- Exponent part of a float literal: optional sign then digits. -/
def parseExponent (cs : List Char) : Option Int :=
  match cs with
  | '+' :: rest =>
    if rest ≠ [] ∧ rest.all Char.isDigit then some (digitsNum rest : Int) else Option.none
  | '-' :: rest =>
    if rest ≠ [] ∧ rest.all Char.isDigit then some (-(digitsNum rest : Int)) else Option.none
  | _ =>
    if cs ≠ [] ∧ cs.all Char.isDigit then some (digitsNum cs : Int) else Option.none

/-- Model of the Python builtin `float(s)` on finite decimal literals:
surrounding whitespace stripped, optional sign, decimal mantissa,
optional `e`/`E` exponent; `Option.none` models `ValueError`.
(The special forms `inf`/`nan` and digit-group underscores are not
modelled; no claim touches them.)  The result is a rational since the
embedded code never computes with the parsed number. -/
def pyFloat (s : String) : Option Rat :=
  let cs := trimChars s.toList
  let signed : List Char × Int :=
    match cs with
    | '+' :: rest => (rest, 1)
    | '-' :: rest => (rest, -1)
    | _ => (cs, 1)
  let em := splitAtChar (fun c => c = 'e' || c = 'E') signed.1
  let mkVal : Nat × Nat → Int → Rat := fun m e =>
    let shift : Int := e - (m.2 : Int)
    if 0 ≤ shift then mkRat (signed.2 * (m.1 : Int) * (10 : Int) ^ shift.toNat) 1
    else mkRat (signed.2 * (m.1 : Int)) ((10 : Nat) ^ (-shift).toNat)
  match em.2 with
  | Option.none => (parseMantissa signed.1).map (fun m => mkVal m 0)
  | some ecs =>
    match parseMantissa em.1, parseExponent ecs with
    | some m, some e => some (mkVal m e)
    | _, _ => Option.none

/-- One comma-split element of an array input: `float(item)` attempted,
the item kept as a string on `ValueError` (node.py lines 119-124). -/
def coerceItem (item : String) : Val :=
  match pyFloat item with
  | some q => .num q
  | Option.none => .str item

/-- Coercion applied to the value of one array-typed input
(node.py lines 114-129): empty string to `[]`; non-empty string split
on commas with each element attempted as a float; a list kept as is;
any other value wrapped in a one-element list. -/
def coerceArrayValue (v : Val) : Val :=
  match v with
  | .str s =>
    if s = "" then .list []
    else .list ((pySplit s ',').map coerceItem)
  | .list xs => .list xs
  | v => .list [v]

/-- In-place dict update `kwargs[k] = f(kwargs[k])`: rewrites the first
binding of `k`, leaves the rest alone; no-op when `k` is absent. -/
def updateKey (k : String) (f : Val → Val) : Kwargs → Kwargs
  | [] => []
  | (k1, v) :: rest =>
    if k1 = k then (k1, f v) :: rest else (k1, v) :: updateKey k f rest

/-- `handle_array_inputs` (node.py lines 110-129): for every input name
the schema marks as array-typed that is present in the kwargs, replace
its value by the coerced value. -/
def handle_array_inputs (arrayInputs : List String) (kwargs : Kwargs) : Kwargs :=
  arrayInputs.foldl (fun kw name => updateKey name coerceArrayValue kw) kwargs

/-- `remove_falsey_optional_inputs` (node.py lines 241-248): every key
that is a declared optional input whose value is not a tensor and is
falsey is deleted; tensor values are kept regardless of truthiness.
Deleting from the dict while iterating over a snapshot of its keys is a
filter on the bindings. -/
def remove_falsey_optional_inputs (optionalInputs : List String) (kwargs : Kwargs) : Kwargs :=
  kwargs.filter (fun p =>
    !(optionalInputs.contains p.1 && !isTensor p.2 && !pyTruthy p.2))

/-- `IS_CHANGED` (node.py lines 43-45).  The wall clock `time.time()` is
embedded as the explicit parameter `now`; `kwargs["force_rerun"]` on a
missing key models Python's `KeyError`. -/
def IS_CHANGED (now : Nat) (kwargs : Kwargs) : Except String Val :=
  match lookupKey "force_rerun" kwargs with
  | Option.none => .error "KeyError: force_rerun"
  | some v => if pyTruthy v then .ok (.num (now : Rat)) else .ok (.str "")

/-- Shape of a torch tensor: the list of its dimension sizes. -/
abbrev Shape := List Nat

/-- `tensor.squeeze()`: every dimension of size 1 removed. -/
def squeezeShape (s : Shape) : Shape :=
  s.filter (fun d => d ≠ 1)

/-- Argument of `audio_to_base64`: either the ComfyUI audio dict with
`waveform` and `sample_rate` keys or a `(waveform, sample_rate)` pair
(node.py lines 86-94); the waveform is modelled by its shape, the only
attribute the dimension handling inspects. -/
inductive AudioArg where
  | dict (waveform : Shape) (sampleRate : Nat)
  | pair (waveform : Shape) (sampleRate : Nat)

/-- Waveform dimension normalization of `audio_to_base64` (node.py
lines 96-102): a 1-D waveform gains a leading axis, a more-than-2-D
waveform is squeezed and rejected if still more than 2-D. -/
def normalizeWaveform (shape : Shape) : Except String Shape :=
  if shape.length = 1 then .ok (1 :: shape)
  else if shape.length > 2 then
    let sq := squeezeShape shape
    if sq.length > 2 then .error "Waveform must be 1D or 2D"
    else .ok sq
  else .ok shape

/-- `audio_to_base64` (node.py lines 85-108).  The WAV encoding
`sf.write` composed with `base64.b64encode(...).decode()` on the
normalized waveform is embedded as the parameter `encodeWav`. -/
def audio_to_base64 (encodeWav : Shape → Nat → String) (audio : AudioArg) :
    Except String String :=
  let wr : Shape × Nat :=
    match audio with
    | .dict w r => (w, r)
    | .pair w r => (w, r)
  match normalizeWaveform wr.1 with
  | .error e => .error e
  | .ok ns => .ok ("data:audio/wav;base64," ++ encodeWav ns wr.2)

/-- A wire-level value in a model response: `None`, a string, a
byte-readable file object whose `read()` yields bytes or raises
(modelled by an `Option`), or a list of wire values. -/
inductive Wire where
  | null
  | str (s : String)
  | file (bytes : Option (List Nat))
  | list (items : List Wire)

/-- Python truthiness of a wire value. -/
def wireTruthy : Wire → Bool
  | .null => false
  | .str s => !(s = "")
  | .file _ => true
  | .list items => !items.isEmpty

/-- `pre.isPrefixOf s` on strings, by characters (Python
`s.startswith(pre)`). -/
def strStarts (pre s : String) : Bool :=
  pre.toList.isPrefixOf s.toList

/-- Python `s.endswith(suf)`, by characters. -/
def strEnds (suf s : String) : Bool :=
  suf.toList.isSuffixOf s.toList

/-- Loop body of `handle_image_output` (node.py lines 152-161): each
response item is read and decoded to a batch-1 tensor; a read or decode
failure raises (there is no try/except in this handler).  A batch-1
tensor is modelled as a one-element list holding the decoded image;
`decodeImg` embeds `Image.open` + RGB conversion + `ToTensor` +
`permute`. -/
def imageTensors {Img : Type} (decodeImg : List Nat → Option Img) :
    List Wire → Except String (List (List Img))
  | [] => .ok []
  | .file (some bs) :: rest =>
    match decodeImg bs with
    | Option.none => .error "image decode failed"
    | some im =>
      match imageTensors decodeImg rest with
      | .error e => .error e
      | .ok ts => .ok ([im] :: ts)
  | .file Option.none :: _ => .error "read failed"
  | _ :: _ => .error "object is not byte-readable"

/-- `handle_image_output` (node.py lines 143-171): `None` and empty
responses yield no output with a diagnostic; otherwise the response is
wrapped into a list if needed and every item decoded to a batch-1
tensor; `torch.cat` along dim 0 of batch-1 tensors is list
concatenation, and the single-tensor case returned as is coincides with
the concatenation of one batch. -/
def handle_image_output {Img : Type} (decodeImg : List Nat → Option Img)
    (output : Wire) : Except String (Option (List Img) × List String) :=
  match output with
  | .null => .ok (Option.none, ["No image output received"])
  | w =>
    let outputList :=
      match w with
      | .list items => items
      | w => [w]
    if outputList.isEmpty then
      .ok (Option.none, ["No output received from the model"])
    else
      match imageTensors decodeImg outputList with
      | .error e => .error e
      | .ok ts => .ok (some ts.flatten, [])

/-- A decoded audio result: one `\x7bwaveform, sample_rate\x7d` dict or an
ordered list of them (node.py lines 191-194). -/
inductive AudioOut where
  | one (waveform : Shape) (sampleRate : Nat)
  | many (items : List (Shape × Nat))

/-- Loop body of `handle_audio_output` (node.py lines 181-189): falsey
items are skipped with a diagnostic, the rest are read and decoded
(failures raise), each decoded waveform gaining a leading batch axis;
`decodeAud` embeds `torchaudio.load`. -/
def audioLoads (decodeAud : List Nat → Option (Shape × Nat)) :
    List Wire → Except String (List (Shape × Nat) × List String)
  | [] => .ok ([], [])
  | w :: rest =>
    if wireTruthy w then
      match w with
      | .file (some bs) =>
        match decodeAud bs with
        | Option.none => .error "audio decode failed"
        | some sr =>
          match audioLoads decodeAud rest with
          | .error e => .error e
          | .ok r => .ok ((1 :: sr.1, sr.2) :: r.1, r.2)
      | .file Option.none => .error "read failed"
      | _ => .error "object is not byte-readable"
    else
      match audioLoads decodeAud rest with
      | .error e => .error e
      | .ok r => .ok (r.1, "Empty audio file received" :: r.2)

/-- `handle_audio_output` (node.py lines 173-197). -/
def handle_audio_output (decodeAud : List Nat → Option (Shape × Nat))
    (output : Wire) : Except String (Option AudioOut × List String) :=
  match output with
  | .null => .ok (Option.none, ["No audio output received from the model"])
  | w =>
    let outputList :=
      match w with
      | .list items => items
      | w => [w]
    match audioLoads decodeAud outputList with
    | .error e => .error e
    | .ok r =>
      match r.1 with
      | [a] => .ok (some (.one a.1 a.2), r.2)
      | [] => .ok (Option.none, r.2 ++ ["No valid audio files processed"])
      | items => .ok (some (.many items), r.2)

/-- The SVG container (node.py lines 26-32): a list of byte buffers. -/
structure SVG where
  data : List (List Nat)

/-- Loop body of `handle_svg_output` (node.py lines 211-233): an
HTTP(S) URL string is fetched (failures, including bad statuses, are
logged and skipped), a byte-readable item is read (failures logged and
skipped), anything else is logged as unsupported; each obtained byte
stream contributes one entry in order.  `fetch` embeds `requests.get` +
`raise_for_status`. -/
def svgCollect (fetch : String → Option (List Nat)) :
    List Wire → List (List Nat) × List String
  | [] => ([], [])
  | w :: rest =>
    let r := svgCollect fetch rest
    match w with
    | .str s =>
      if strStarts "http://" s || strStarts "https://" s then
        match fetch s with
        | some bs => (bs :: r.1, r.2)
        | Option.none => (r.1, ("Failed to download SVG from URL " ++ s) :: r.2)
      else (r.1, "Unsupported SVG output format" :: r.2)
    | .file (some bs) => (bs :: r.1, r.2)
    | .file Option.none => (r.1, "Failed to read SVG data" :: r.2)
    | _ => (r.1, "Unsupported SVG output format" :: r.2)

/-- `handle_svg_output` (node.py lines 199-239). -/
def handle_svg_output (fetch : String → Option (List Nat))
    (output : Wire) : Option SVG × List String :=
  match output with
  | .null => (Option.none, ["No SVG output received from the model"])
  | w =>
    let outputList :=
      match w with
      | .list items => items
      | w => [w]
    let r := svgCollect fetch outputList
    if r.1.isEmpty then (Option.none, r.2 ++ ["No valid SVG data processed"])
    else (some ⟨r.1⟩, r.2)

/-- `"".join(list(x))` where every element must be a string
(`TypeError` otherwise, `TypeError` as well when `x` is not iterable). -/
def joinStrs : List Wire → Except String String
  | [] => .ok ""
  | .str s :: rest => (joinStrs rest).map (fun t => s ++ t)
  | _ :: _ => .error "TypeError: sequence item is not str"

/-- The string-slot shaping `"".join(list(v)).strip()` of
`run_replicate_model` (node.py lines 276-279): a string joins to
itself, a list of strings is concatenated, anything else is not
iterable into strings. -/
def strJoin : Wire → Except String String
  | .str s => .ok (String.mk (trimChars s.toList))
  | .list items => (joinStrs items).map (fun s => String.mk (trimChars s.toList))
  | .null => .error "TypeError: not iterable"
  | .file _ => .error "TypeError: not iterable"

/-- Modelled from the spec: the recognized output type tokens produced
by `get_return_type` of the external `schema_to_node` module (that
module is not part of the embedded source); per the spec the recognized
output tokens are image, audio, vector-graphic and text (the literal
tokens `"IMAGE"`, `"AUDIO"`, `"SVG"`, `"STRING"` dispatched on in
node.py lines 264-276). -/
inductive RetType where
  | image
  | audio
  | svg
  | string

/-- Modelled from the spec: the return spec of a schema as produced by
`get_return_type` — a single output token or an ordered mapping of
named output slots to tokens (a Python dict preserves insertion order,
hence a list of pairs). -/
inductive ReturnSpec where
  | single (t : RetType)
  | slots (entries : List (String × RetType))

/-- `RETURN_TYPES` (node.py lines 51-55): the tuple of slot types in
declaration order when the return spec is a mapping, a one-element
tuple otherwise. -/
def RETURN_TYPES : ReturnSpec → List RetType
  | .single t => [t]
  | .slots es => es.map Prod.snd

/-- Generic dict lookup `d.get(k)` over an association list. -/
def lookupWire (k : String) : List (String × Wire) → Option Wire
  | [] => Option.none
  | (k1, v) :: rest => if k1 = k then some v else lookupWire k rest

/-- One decoded output slot of `run_replicate_model`. -/
inductive OutVal (Img : Type) where
  | image (t : Option (List Img))
  | audio (a : Option AudioOut)
  | svg (s : Option SVG)
  | str (s : String)

/-- One iteration of the mapping-return branch of `run_replicate_model`
(node.py lines 263-279): the slot value `output.get(name)` (default
`None`, and `""` for string slots) decoded by the handler selected by
the slot type. -/
def decodeSlot {Img : Type} (decodeImg : List Nat → Option Img)
    (decodeAud : List Nat → Option (Shape × Nat))
    (fetch : String → Option (List Nat))
    (output : List (String × Wire)) (slot : String × RetType) :
    Except String (OutVal Img × List String) :=
  match slot.2 with
  | .image =>
    match handle_image_output decodeImg ((lookupWire slot.1 output).getD .null) with
    | .error e => .error e
    | .ok r => .ok (.image r.1, r.2)
  | .audio =>
    match handle_audio_output decodeAud ((lookupWire slot.1 output).getD .null) with
    | .error e => .error e
    | .ok r => .ok (.audio r.1, r.2)
  | .svg =>
    let r := handle_svg_output fetch ((lookupWire slot.1 output).getD .null)
    .ok (.svg r.1, r.2)
  | .string =>
    match strJoin ((lookupWire slot.1 output).getD (.str "")) with
    | .error e => .error e
    | .ok s => .ok (.str s, [])

/-- The mapping-return branch of `run_replicate_model` (node.py lines
261-279 and 290): the slots are decoded independently in declaration
order, the decoded results collected in that order. -/
def shape_dict_output {Img : Type} (decodeImg : List Nat → Option Img)
    (decodeAud : List Nat → Option (Shape × Nat))
    (fetch : String → Option (List Nat))
    (slotsList : List (String × RetType)) (output : List (String × Wire)) :
    Except String (List (OutVal Img) × List String) :=
  match slotsList with
  | [] => .ok ([], [])
  | s :: rest =>
    match decodeSlot decodeImg decodeAud fetch output s with
    | .error e => .error e
    | .ok r =>
      match shape_dict_output decodeImg decodeAud fetch rest output with
      | .error e => .error e
      | .ok rs => .ok (r.1 :: rs.1, r.2 ++ rs.2)

/-- The generated node class of `create_comfyui_node` (node.py lines
38-292), modelled by the schema captured in its closure. -/
structure NodeClass (Schema : Type) where
  schema : Schema

/-- `create_comfyui_node` (node.py lines 38-39 and 292): the derived
node name together with the generated class.  The name derivation
`name_and_version` lives in the external `schema_to_node` module and is
embedded as the parameter `nameOf`. -/
def create_comfyui_node {Schema : Type} (nameOf : Schema → String)
    (schema : Schema) : String × NodeClass Schema :=
  (nameOf schema, ⟨schema⟩)

/-- Python dict assignment `d[k] = v`: replaces the binding in place
when the key exists, appends it otherwise. -/
def dictInsert {α : Type} (k : String) (v : α) :
    List (String × α) → List (String × α)
  | [] => [(k, v)]
  | (k1, v1) :: rest =>
    if k1 = k then (k, v) :: rest else (k1, v1) :: dictInsert k v rest

/-- The directory-scan loop of `create_comfyui_nodes_from_schemas`
(node.py lines 299-306) over a directory listing of (file name, file
content) pairs: files not ending in `.json` are skipped, each schema
file is parsed (`json.load`; a parse failure raises and aborts) and the
generated node stored under its derived name.  `parse` embeds
`json.load`. -/
def createNodesLoop {Schema : Type} (parse : String → Option Schema)
    (nameOf : Schema → String) (files : List (String × String))
    (nodes : List (String × NodeClass Schema)) :
    Except String (List (String × NodeClass Schema)) :=
  match files with
  | [] => .ok nodes
  | (fname, content) :: rest =>
    if strEnds ".json" fname then
      match parse content with
      | Option.none => .error ("malformed schema file: " ++ fname)
      | some schema =>
        let nc := create_comfyui_node nameOf schema
        createNodesLoop parse nameOf rest (dictInsert nc.1 nc.2 nodes)
    else createNodesLoop parse nameOf rest nodes

/-- `create_comfyui_nodes_from_schemas` (node.py lines 295-307). -/
def create_comfyui_nodes_from_schemas {Schema : Type}
    (parse : String → Option Schema) (nameOf : Schema → String)
    (files : List (String × String)) :
    Except String (List (String × NodeClass Schema)) :=
  createNodesLoop parse nameOf files []

/-- `get_node_class_mappings` (node.py lines 310-317) with the module
global `_cached_node_class_mappings` passed in and returned explicitly;
`build` is the value of `create_comfyui_nodes_from_schemas("schemas")`
and the third component counts how many times the builder ran during
the call. -/
def get_node_class_mappings {M : Type} (build : M) (cache : Option M) :
    M × Option M × Nat :=
  match cache with
  | Option.none => (build, some build, 1)
  | some m => (m, some m, 0)

theorem lookup_updateKey_self (k : String) (f : Val → Val) (kw : Kwargs) :
    lookupKey k (updateKey k f kw) = (lookupKey k kw).map f := by
  induction kw with
  | nil => simp [lookupKey, updateKey]
  | cons p rest ih =>
    obtain ⟨k1, v⟩ := p
    by_cases h : k1 = k <;> simp [lookupKey, updateKey, h, ih]

theorem lookup_updateKey_ne (a k : String) (h : a ≠ k) (f : Val → Val) (kw : Kwargs) :
    lookupKey k (updateKey a f kw) = lookupKey k kw := by
  induction kw with
  | nil => simp [updateKey]
  | cons p rest ih =>
    obtain ⟨k1, v⟩ := p
    by_cases h1 : k1 = a
    · subst h1
      simp [updateKey, lookupKey, h, ih]
    · by_cases h2 : k1 = k
      · subst h2
        simp [updateKey, lookupKey, h1]
      · simp [updateKey, lookupKey, h1, h2, ih]

theorem coerceArrayValue_idem (v : Val) :
    coerceArrayValue (coerceArrayValue v) = coerceArrayValue v := by
  cases v with
  | str s =>
    by_cases hs : s = "" <;> simp [coerceArrayValue, hs]
  | _ => simp [coerceArrayValue]

theorem lookup_handle_array (arrayInputs : List String) (kwargs : Kwargs) (k : String) :
    lookupKey k (handle_array_inputs arrayInputs kwargs) =
      if k ∈ arrayInputs then (lookupKey k kwargs).map coerceArrayValue
      else lookupKey k kwargs := by
  induction arrayInputs generalizing kwargs with
  | nil => simp [handle_array_inputs]
  | cons a rest ih =>
    have hstep : handle_array_inputs (a :: rest) kwargs
        = handle_array_inputs rest (updateKey a coerceArrayValue kwargs) := rfl
    rw [hstep, ih]
    by_cases hak : a = k
    · subst hak
      rw [lookup_updateKey_self]
      have hmem : a ∈ a :: rest := List.mem_cons_self a rest
      by_cases hk : a ∈ rest
      · simp only [hk, if_true, hmem]
        cases lookupKey a kwargs with
        | none => rfl
        | some v => simp [coerceArrayValue_idem]
      · simp [hk, hmem]
    · rw [lookup_updateKey_ne a k hak]
      by_cases hk : k ∈ rest <;> simp [hk, List.mem_cons, Ne.symm hak]

/-- C1: for every array-typed input, the array-coercion step maps an
empty string to an empty sequence; a non-empty string to its
comma-split elements, each converted to a number when `float` succeeds
and kept as text otherwise (`"1,2,foo"` becomes `[1.0, 2.0, "foo"]`);
a non-string non-sequence value to a one-element sequence containing
it; and leaves a sequence unchanged. -/
theorem C1_array_coercion_spec (arrayInputs : List String) (kwargs : Kwargs)
    (k : String) (v : Val) (hk : k ∈ arrayInputs)
    (hv : lookupKey k kwargs = some v) :
    lookupKey k (handle_array_inputs arrayInputs kwargs)
      = some (coerceArrayValue v) ∧
    coerceArrayValue (.str "") = .list [] ∧
    (∀ s : String, s ≠ "" →
      coerceArrayValue (.str s) = .list ((pySplit s ',').map coerceItem)) ∧
    (∀ item q, pyFloat item = some q → coerceItem item = .num q) ∧
    (∀ item, pyFloat item = Option.none → coerceItem item = .str item) ∧
    coerceArrayValue (.str "1,2,foo")
      = .list [.num 1, .num 2, .str "foo"] ∧
    (∀ w : Val, isStr w = false → isList w = false →
      coerceArrayValue w = .list [w]) ∧
    (∀ xs : List Val, coerceArrayValue (.list xs) = .list xs) := by
  refine ⟨?_, rfl, ?_, ?_, ?_, rfl, ?_, fun xs => rfl⟩
  · rw [lookup_handle_array]
    simp [hk, hv]
  · intro s hs
    simp [coerceArrayValue, hs]
  · intro item q h
    simp [coerceItem, h]
  · intro item h
    simp [coerceItem, h]
  · intro w h1 h2
    cases w <;> simp_all [isStr, isList, coerceArrayValue]

theorem C1_array_coercion_witness :
    lookupKey "a" (handle_array_inputs ["a"] [("a", Val.str "1,2,foo")])
      = some (coerceArrayValue (Val.str "1,2,foo")) :=
  (C1_array_coercion_spec ["a"] [("a", Val.str "1,2,foo")] "a"
    (Val.str "1,2,foo") (by simp) rfl).1

/-- C2: the optional-pruning step removes exactly those bindings whose
key is a declared optional input and whose value is falsey (empty
string, zero, empty sequence, null), and never removes a binding whose
value is a tensor, regardless of that tensor's truthiness. -/
theorem C2_optional_pruning_spec (optionalInputs : List String)
    (kwargs : Kwargs) (k : String) (v : Val) :
    ((k, v) ∈ remove_falsey_optional_inputs optionalInputs kwargs ↔
      (k, v) ∈ kwargs ∧
        ¬(k ∈ optionalInputs ∧ isTensor v = false ∧ pyTruthy v = false)) ∧
    (isTensor v = true →
      ((k, v) ∈ remove_falsey_optional_inputs optionalInputs kwargs ↔
        (k, v) ∈ kwargs)) ∧
    pyTruthy (.str "") = false ∧
    pyTruthy (.num 0) = false ∧
    pyTruthy (.list []) = false ∧
    pyTruthy .none = false ∧
    (∀ (shape : List Nat) (t : Bool), isTensor (.tensor shape t) = true) := by
  have hmain : (k, v) ∈ remove_falsey_optional_inputs optionalInputs kwargs ↔
      (k, v) ∈ kwargs ∧
        ¬(k ∈ optionalInputs ∧ isTensor v = false ∧ pyTruthy v = false) := by
    simp only [remove_falsey_optional_inputs, List.mem_filter]
    refine and_congr_right fun _ => ?_
    cases htens : isTensor v <;> cases htru : pyTruthy v <;>
      by_cases hopt : k ∈ optionalInputs <;>
        simp [htens, htru, hopt]
  refine ⟨hmain, ?_, rfl, ?_, rfl, rfl, fun shape t => rfl⟩
  · intro ht
    rw [hmain]
    simp [ht]
  · simp [pyTruthy]

theorem C2_optional_pruning_witness :
    ("x", Val.tensor [1] false) ∈
      remove_falsey_optional_inputs ["x"] [("x", Val.tensor [1] false)] :=
  ((C2_optional_pruning_spec ["x"] [("x", Val.tensor [1] false)] "x"
    (Val.tensor [1] false)).2.1 rfl).mpr (by simp)

/-- C7: the changed-probe returns the (non-empty) clock value when the
force-rerun flag is truthy, so two calls at distinct clock readings
return differing values, and returns the constant empty string on every
call when the flag is falsey. -/
theorem C7_changed_probe_spec (t1 t2 : Nat) (kwargs : Kwargs) (v : Val)
    (hv : lookupKey "force_rerun" kwargs = some v) :
    (pyTruthy v = true →
      IS_CHANGED t1 kwargs = .ok (.num (t1 : Rat)) ∧
      (∀ s : String, Val.num (t1 : Rat) ≠ Val.str s) ∧
      (t1 ≠ t2 → IS_CHANGED t1 kwargs ≠ IS_CHANGED t2 kwargs)) ∧
    (pyTruthy v = false →
      IS_CHANGED t1 kwargs = .ok (.str "") ∧
      IS_CHANGED t1 kwargs = IS_CHANGED t2 kwargs) := by
  constructor
  · intro htru
    refine ⟨by simp [IS_CHANGED, hv, htru], ?_, ?_⟩
    · intro s h
      simp at h
    intro hne
    simp only [IS_CHANGED, hv, htru, if_true]
    intro h
    apply hne
    have h2 : Val.num (t1 : Rat) = Val.num (t2 : Rat) := by
      simpa using h
    have h3 : (t1 : Rat) = (t2 : Rat) := by
      injection h2
    exact_mod_cast h3
  · intro hfal
    simp [IS_CHANGED, hv, hfal]

theorem C7_changed_probe_witness :
    IS_CHANGED 0 [("force_rerun", Val.bool true)]
      ≠ IS_CHANGED 1 [("force_rerun", Val.bool true)] :=
  ((C7_changed_probe_spec 0 1 [("force_rerun", Val.bool true)]
    (Val.bool true) rfl).1 rfl).2.2 (by decide)

/-- C9: the registry accessor has get-or-build semantics: a call with
an empty cache builds the mapping (builder runs once) and stores it; a
call with a populated cache returns the cached mapping unchanged and
never runs the builder, so the second of two successive calls returns
the same mapping as the first with no rebuild. -/
theorem C9_registry_cache_spec {M : Type} (build : M) :
    get_node_class_mappings build Option.none = (build, some build, 1) ∧
    (∀ m : M, get_node_class_mappings build (some m) = (m, some m, 0)) ∧
    (get_node_class_mappings build
        (get_node_class_mappings build Option.none).2.1).1
      = (get_node_class_mappings build Option.none).1 ∧
    (get_node_class_mappings build
        (get_node_class_mappings build Option.none).2.1).2.1
      = (get_node_class_mappings build Option.none).2.1 ∧
    (get_node_class_mappings build
        (get_node_class_mappings build Option.none).2.1).2.2 = 0 :=
  ⟨rfl, fun _ => rfl, rfl, rfl, rfl⟩

/-- C10: a call of the changed-probe whose keyword arguments lack the
`force_rerun` key raises a `KeyError` instead of returning the stable
empty value. -/
theorem C10_keyerror_spec (now : Nat) (kwargs : Kwargs)
    (h : lookupKey "force_rerun" kwargs = Option.none) :
    IS_CHANGED now kwargs = .error "KeyError: force_rerun" := by
  simp [IS_CHANGED, h]

theorem C10_keyerror_witness :
    IS_CHANGED 3 [("other", Val.num 1)] = .error "KeyError: force_rerun" :=
  C10_keyerror_spec 3 [("other", Val.num 1)] rfl

/-- Waveform extraction of `audio_to_base64` (node.py lines 86-94). -/
def waveformOf : AudioArg → Shape
  | .dict w _ => w
  | .pair w _ => w

/-- Sample-rate extraction of `audio_to_base64` (node.py lines 86-94). -/
def rateOf : AudioArg → Nat
  | .dict _ r => r
  | .pair _ r => r

/-- C6: a 1-dimensional waveform is treated as 1×N; a waveform with
more than 2 dimensions is squeezed and, if still more than 2-D after
the squeeze, the conversion raises (`Except.error`, uncaught by any
handler in the embedded code); every successful conversion is a base64
data URI beginning with `data:audio/wav;base64,`. -/
theorem C6_audio_to_base64_spec (encodeWav : Shape → Nat → String)
    (a : AudioArg) :
    ((waveformOf a).length = 1 →
      audio_to_base64 encodeWav a
        = .ok ("data:audio/wav;base64," ++
            encodeWav (1 :: waveformOf a) (rateOf a))) ∧
    ((waveformOf a).length > 2 → (squeezeShape (waveformOf a)).length > 2 →
      audio_to_base64 encodeWav a = .error "Waveform must be 1D or 2D") ∧
    ((waveformOf a).length > 2 → (squeezeShape (waveformOf a)).length ≤ 2 →
      audio_to_base64 encodeWav a
        = .ok ("data:audio/wav;base64," ++
            encodeWav (squeezeShape (waveformOf a)) (rateOf a))) ∧
    (∀ s : String, audio_to_base64 encodeWav a = .ok s →
      ∃ rest, s = "data:audio/wav;base64," ++ rest) := by
  obtain ⟨w, r⟩ | ⟨w, r⟩ := a <;>
  · refine ⟨?_, ?_, ?_, ?_⟩
    · intro h1
      simp only [waveformOf, rateOf] at h1 ⊢
      simp [audio_to_base64, normalizeWaveform, h1]
    · intro h1 h2
      simp only [waveformOf] at h1 h2
      have hne : ¬ (w.length = 1) := by omega
      simp [audio_to_base64, normalizeWaveform, hne, h1, h2]
    · intro h1 h2
      simp only [waveformOf, rateOf] at h1 h2 ⊢
      have hne : ¬ (w.length = 1) := by omega
      have hsq : ¬ ((squeezeShape w).length > 2) := by omega
      simp [audio_to_base64, normalizeWaveform, hne, h1, hsq]
    · intro s hs
      simp only [audio_to_base64] at hs
      cases hnw : normalizeWaveform w with
      | error e =>
        rw [hnw] at hs
        simp at hs
      | ok ns =>
        rw [hnw] at hs
        simp only [Except.ok.injEq] at hs
        exact ⟨encodeWav ns r, hs.symm⟩

theorem C6_audio_to_base64_witness :
    audio_to_base64 (fun _ _ => "ZZ") (AudioArg.dict [3] 44100)
      = .ok ("data:audio/wav;base64," ++ (fun (_ : Shape) (_ : Nat) => "ZZ") (1 :: waveformOf (AudioArg.dict [3] 44100)) (rateOf (AudioArg.dict [3] 44100))) :=
  (C6_audio_to_base64_spec (fun _ _ => "ZZ") (AudioArg.dict [3] 44100)).1 rfl

theorem imageTensors_map {Img : Type} (decode : List Nat → Option Img)
    (bss : List (List Nat)) (ims : List Img)
    (hdec : bss.map decode = ims.map some) :
    imageTensors decode (bss.map (fun b => Wire.file (some b)))
      = .ok (ims.map (fun im => [im])) := by
  induction bss generalizing ims with
  | nil =>
    cases ims with
    | nil => rfl
    | cons i is => simp at hdec
  | cons b bs ih =>
    cases ims with
    | nil => simp at hdec
    | cons i is =>
      simp only [List.map_cons, List.cons.injEq] at hdec
      obtain ⟨hb, hrest⟩ := hdec
      simp only [List.map_cons, imageTensors, hb]
      rw [ih is hrest]

theorem flatten_singletons {Img : Type} (ims : List Img) :
    (ims.map (fun im => [im])).flatten = ims := by
  induction ims <;> simp_all

/-- C4: a response list of N decodable images yields a single batched
tensor of batch-size N with order preserved first-to-last, while a null
or empty response yields a null output with a diagnostic rather than an
exception. -/
theorem C4_image_output_spec {Img : Type} (decode : List Nat → Option Img)
    (bss : List (List Nat)) (ims : List Img)
    (hdec : bss.map decode = ims.map some) (hne : bss ≠ []) :
    handle_image_output decode
        (Wire.list (bss.map (fun b => Wire.file (some b))))
      = .ok (some ims, []) ∧
    ims.length = bss.length ∧
    handle_image_output decode Wire.null
      = .ok (Option.none, ["No image output received"]) ∧
    handle_image_output decode (Wire.list [])
      = .ok (Option.none, ["No output received from the model"]) := by
  refine ⟨?_, ?_, rfl, rfl⟩
  · have hlist := imageTensors_map decode bss ims hdec
    have hne2 : (bss.map (fun b => Wire.file (some b))).isEmpty = false := by
      cases bss with
      | nil => exact absurd rfl hne
      | cons b bs => rfl
    simp only [handle_image_output, hne2, Bool.false_eq_true, if_false, hlist]
    simp [flatten_singletons]
  · have hlen := congrArg List.length hdec
    simpa using hlen.symm

theorem C4_image_output_witness :
    handle_image_output (fun bs => some bs.length)
        (Wire.list ([[7], [8, 9]].map (fun b => Wire.file (some b))))
      = .ok (some [1, 2], []) :=
  (C4_image_output_spec (fun bs => some bs.length) [[7], [8, 9]] [1, 2]
    rfl (by simp)).1

/-- Per-item success result of the `handle_svg_output` loop (node.py
lines 211-233): an HTTP(S) URL yields its fetched bytes when the fetch
succeeds, a byte-readable item yields its read bytes when the read
succeeds, everything else yields nothing. -/
def svgItemResult (fetch : String → Option (List Nat)) : Wire → Option (List Nat)
  | .str s =>
    if strStarts "http://" s || strStarts "https://" s then fetch s
    else Option.none
  | .file b => b
  | _ => Option.none

theorem svgCollect_eq (fetch : String → Option (List Nat))
    (items : List Wire) :
    (svgCollect fetch items).1 = items.filterMap (svgItemResult fetch) := by
  induction items with
  | nil => rfl
  | cons w rest ih =>
    cases w with
    | str s =>
      by_cases hs : (strStarts "http://" s || strStarts "https://" s) = true
      · cases hf : fetch s <;> simp [svgCollect, svgItemResult, hs, hf, ih]
      · simp [svgCollect, svgItemResult, hs, ih]
    | file b => cases b <;> simp [svgCollect, svgItemResult, ih]
    | null => simp [svgCollect, svgItemResult, ih]
    | list xs => simp [svgCollect, svgItemResult, ih]

/-- C5: over a response list, each item successfully fetched (URL) or
read (byte-readable) contributes exactly one entry to the output
container in order, failed items are skipped with a diagnostic and are
not fatal, a response where nothing succeeds yields a null output, and
a list of one fetchable URL and one unreachable URL yields a container
with exactly the one fetched entry. -/
theorem C5_svg_output_spec (fetch : String → Option (List Nat))
    (items : List Wire) (u1 u2 : String) (b : List Nat)
    (h1 : strStarts "https://" u1 = true)
    (h2 : strStarts "https://" u2 = true)
    (hf1 : fetch u1 = some b) (hf2 : fetch u2 = Option.none) :
    (handle_svg_output fetch (Wire.list items)).1
      = (if (items.filterMap (svgItemResult fetch)).isEmpty then Option.none
         else some ⟨items.filterMap (svgItemResult fetch)⟩) ∧
    handle_svg_output fetch (Wire.list [Wire.str u1, Wire.str u2])
      = (some ⟨[b]⟩, ["Failed to download SVG from URL " ++ u2]) ∧
    handle_svg_output fetch Wire.null
      = (Option.none, ["No SVG output received from the model"]) := by
  refine ⟨?_, ?_, rfl⟩
  · have hc := svgCollect_eq fetch items
    simp only [handle_svg_output, hc]
    by_cases hE : (items.filterMap (svgItemResult fetch)).isEmpty = true <;>
      simp [hE]
  · simp [handle_svg_output, svgCollect, h1, h2, hf1, hf2]

theorem C5_svg_output_witness :
    handle_svg_output
        (fun s => if s = "https://a" then some [7] else Option.none)
        (Wire.list [Wire.str "https://a", Wire.str "https://b"])
      = (some ⟨[[7]]⟩, ["Failed to download SVG from URL " ++ "https://b"]) :=
  (C5_svg_output_spec
    (fun s => if s = "https://a" then some [7] else Option.none)
    [] "https://a" "https://b" [7] rfl rfl rfl rfl).2.1

/-- C3: for a return spec that is a mapping of named slots, the
output-shaping step decodes each slot independently in declared order
and returns the ordered tuple of the results: one element per declared
slot, in declaration order, matching the declared `RETURN_TYPES`
arity. -/
theorem C3_dict_output_spec {Img : Type} (decodeImg : List Nat → Option Img)
    (decodeAud : List Nat → Option (Shape × Nat))
    (fetch : String → Option (List Nat))
    (slotsList : List (String × RetType)) (output : List (String × Wire))
    (results : List (OutVal Img)) (logs : List String)
    (h : shape_dict_output decodeImg decodeAud fetch slotsList output
          = .ok (results, logs)) :
    results.length = (RETURN_TYPES (.slots slotsList)).length ∧
    List.Forall₂ (fun slot v => ∃ lg,
      decodeSlot decodeImg decodeAud fetch output slot = .ok (v, lg))
      slotsList results := by
  induction slotsList generalizing results logs with
  | nil =>
    simp only [shape_dict_output, Except.ok.injEq, Prod.mk.injEq] at h
    obtain ⟨h1, -⟩ := h
    subst h1
    exact ⟨rfl, List.Forall₂.nil⟩
  | cons s rest ih =>
    simp only [shape_dict_output] at h
    cases hd : decodeSlot decodeImg decodeAud fetch output s with
    | error e =>
      rw [hd] at h
      simp at h
    | ok rv =>
      rw [hd] at h
      cases hrest : shape_dict_output decodeImg decodeAud fetch rest output with
      | error e =>
        rw [hrest] at h
        simp at h
      | ok rs =>
        rw [hrest] at h
        simp only [Except.ok.injEq, Prod.mk.injEq] at h
        obtain ⟨h1, -⟩ := h
        obtain ⟨hlen, hfa⟩ := ih rs.1 rs.2 (by rw [hrest])
        subst h1
        refine ⟨?_, ?_⟩
        · simp only [RETURN_TYPES, List.length_map, List.length_cons] at hlen ⊢
          omega
        · exact List.Forall₂.cons ⟨rv.2, by rw [hd]⟩ hfa

theorem C3_dict_output_witness :
    ([OutVal.str "x", OutVal.str "y"] : List (OutVal Unit)).length
      = (RETURN_TYPES (.slots [("a", RetType.string), ("b", RetType.string)])).length ∧
    List.Forall₂ (fun slot v => ∃ lg,
      decodeSlot (fun _ => (Option.none : Option Unit))
        (fun _ => Option.none) (fun _ => Option.none)
        [("a", Wire.str " x "), ("b", Wire.str "y")] slot = .ok (v, lg))
      [("a", RetType.string), ("b", RetType.string)]
      ([OutVal.str "x", OutVal.str "y"] : List (OutVal Unit)) :=
  C3_dict_output_spec (fun _ => (Option.none : Option Unit))
    (fun _ => Option.none) (fun _ => Option.none)
    [("a", RetType.string), ("b", RetType.string)]
    [("a", Wire.str " x "), ("b", Wire.str "y")]
    [OutVal.str "x", OutVal.str "y"] [] rfl

/-- The `.json` directory entries (node.py line 300). -/
def jsonFiles (files : List (String × String)) : List (String × String) :=
  files.filter (fun f => strEnds ".json" f.1)

/-- The (derived name, generated node) entries the directory scan
produces, in directory order, one per parsed schema file. -/
def derivedEntries {Schema : Type} (parse : String → Option Schema)
    (nameOf : Schema → String) (files : List (String × String)) :
    List (String × NodeClass Schema) :=
  (jsonFiles files).filterMap
    (fun f => (parse f.2).map (fun s => (nameOf s, NodeClass.mk s)))

theorem dictInsert_fresh {α : Type} (k : String) (v : α)
    (acc : List (String × α)) (h : k ∉ acc.map Prod.fst) :
    dictInsert k v acc = acc ++ [(k, v)] := by
  induction acc with
  | nil => rfl
  | cons p rest ih =>
    obtain ⟨k1, v1⟩ := p
    simp only [List.map_cons, List.mem_cons] at h
    push_neg at h
    obtain ⟨h1, h2⟩ := h
    have hne : ¬ (k1 = k) := fun hh => h1 hh.symm
    simp [dictInsert, hne, ih h2]

theorem createNodesLoop_ok {Schema : Type} (parse : String → Option Schema)
    (nameOf : Schema → String) (files : List (String × String)) :
    ∀ (acc m : List (String × NodeClass Schema)),
    createNodesLoop parse nameOf files acc = .ok m →
    ((derivedEntries parse nameOf files).map Prod.fst).Nodup →
    (∀ e ∈ derivedEntries parse nameOf files, e.1 ∉ acc.map Prod.fst) →
    m = acc ++ derivedEntries parse nameOf files ∧
    (∀ f ∈ files, strEnds ".json" f.1 = true → (parse f.2).isSome) := by
  induction files with
  | nil =>
    intro acc m h _ _
    simp only [createNodesLoop, Except.ok.injEq] at h
    subst h
    exact ⟨by simp [derivedEntries, jsonFiles], by simp⟩
  | cons f rest ih =>
    intro acc m h hnodup hdisj
    obtain ⟨fname, content⟩ := f
    cases hj : strEnds ".json" fname with
    | false =>
      have hde : derivedEntries parse nameOf ((fname, content) :: rest)
          = derivedEntries parse nameOf rest := by
        simp [derivedEntries, jsonFiles, hj]
      rw [hde] at hnodup hdisj
      simp only [createNodesLoop, hj, Bool.false_eq_true, if_false] at h
      obtain ⟨hm, htail⟩ := ih acc m h hnodup hdisj
      refine ⟨by rw [hm, hde], ?_⟩
      intro g hg hgj
      rcases List.mem_cons.mp hg with hg1 | hg2
      · rw [hg1] at hgj
        rw [hj] at hgj
        cases hgj
      · exact htail g hg2 hgj
    | true =>
      simp only [createNodesLoop, hj, if_true] at h
      cases hp : parse content with
      | none =>
        rw [hp] at h
        simp at h
      | some schema =>
        rw [hp] at h
        simp only [create_comfyui_node] at h
        have hde : derivedEntries parse nameOf ((fname, content) :: rest)
            = (nameOf schema, NodeClass.mk schema)
                :: derivedEntries parse nameOf rest := by
          simp [derivedEntries, jsonFiles, hj, hp]
        rw [hde] at hnodup hdisj
        simp only [List.map_cons, List.nodup_cons] at hnodup
        obtain ⟨hnotin, hnodup2⟩ := hnodup
        have hfresh : nameOf schema ∉ acc.map Prod.fst :=
          hdisj (nameOf schema, NodeClass.mk schema) (List.mem_cons_self _ _)
        rw [dictInsert_fresh _ _ _ hfresh] at h
        have hdisj2 : ∀ e ∈ derivedEntries parse nameOf rest,
            e.1 ∉ (acc ++ [(nameOf schema, NodeClass.mk schema)]).map Prod.fst := by
          intro e he
          simp only [List.map_append, List.map_cons, List.map_nil,
            List.mem_append, List.mem_cons, List.not_mem_nil]
          push_neg
          refine ⟨?_, ?_, fun hfalse => hfalse⟩
          · exact hdisj e (List.mem_cons_of_mem _ he)
          · intro he1
            apply hnotin
            rw [← he1]
            exact List.mem_map_of_mem Prod.fst he
        obtain ⟨hm, htail⟩ := ih (acc ++ [(nameOf schema, NodeClass.mk schema)])
          m h hnodup2 hdisj2
        refine ⟨?_, ?_⟩
        · rw [hm, hde, List.append_assoc]
          rfl
        · intro g hg hgj
          rcases List.mem_cons.mp hg with hg1 | hg2
          · rw [hg1]
            simp [hp]
          · exact htail g hg2 hgj

theorem length_filterMap_all_some {α β : Type} (g : α → Option β)
    (l : List α) (h : ∀ a ∈ l, (g a).isSome) :
    (l.filterMap g).length = l.length := by
  induction l with
  | nil => rfl
  | cons a rest ih =>
    have ha := h a (List.mem_cons_self a rest)
    cases hg : g a with
    | none =>
      rw [hg] at ha
      simp at ha
    | some b =>
      simp [List.filterMap_cons, hg,
        ih (fun x hx => h x (List.mem_cons_of_mem a hx))]

/-- C8 counterexample: a schema directory with two schema files of
identical content (hence the same derived node name under any
deterministic derivation) produces a one-entry mapping, not one entry
per schema file: the second file overwrites the first. -/
theorem C8_registry_counterexample :
    create_comfyui_nodes_from_schemas (fun s => some s) (fun _ => "N")
        [("a.json", "s"), ("b.json", "s")]
      = .ok [("N", NodeClass.mk "s")] ∧
    (jsonFiles [("a.json", "s"), ("b.json", "s")]).length = 2 :=
  ⟨rfl, rfl⟩

/-- C8 amended: registry construction stores one entry per distinct
derived node name, a later schema file overwriting an earlier one with
the same derived name; when the derived names are pairwise distinct the
mapping has exactly one entry per schema file found, keyed by the name
derived from that schema and holding the node generated from it;
non-JSON files are ignored. -/
theorem C8_registry_build_spec {Schema : Type} (parse : String → Option Schema)
    (nameOf : Schema → String) (files : List (String × String))
    (m : List (String × NodeClass Schema))
    (h : create_comfyui_nodes_from_schemas parse nameOf files = .ok m)
    (hnodup : ((derivedEntries parse nameOf files).map Prod.fst).Nodup) :
    m = derivedEntries parse nameOf files ∧
    m.length = (jsonFiles files).length ∧
    (∀ name node, (name, node) ∈ m → name = nameOf node.schema) := by
  obtain ⟨hm, hsome⟩ := createNodesLoop_ok parse nameOf files [] m h hnodup
    (by simp)
  simp only [List.nil_append] at hm
  refine ⟨hm, ?_, ?_⟩
  · rw [hm, derivedEntries, length_filterMap_all_some]
    intro f hf
    simp only [jsonFiles, List.mem_filter] at hf
    have hs := hsome f hf.1 hf.2
    cases hps : parse f.2 with
    | none =>
      rw [hps] at hs
      simp at hs
    | some s => simp [hps]
  · intro name node hmem
    rw [hm] at hmem
    simp only [derivedEntries, List.mem_filterMap] at hmem
    obtain ⟨f, hf, he⟩ := hmem
    cases hp : parse f.2 with
    | none =>
      rw [hp] at he
      simp at he
    | some s =>
      rw [hp] at he
      simp only [Option.map_some', Option.some.injEq, Prod.mk.injEq] at he
      obtain ⟨h1, h2⟩ := he
      rw [← h1, ← h2]

theorem C8_registry_build_witness :
    ([("s1", NodeClass.mk "s1"), ("s2", NodeClass.mk "s2")]
        : List (String × NodeClass String))
      = derivedEntries (fun s => some s) (fun s => s)
          [("a.json", "s1"), ("x.txt", "zz"), ("b.json", "s2")] ∧
    ([("s1", NodeClass.mk "s1"), ("s2", NodeClass.mk "s2")]
        : List (String × NodeClass String)).length
      = (jsonFiles [("a.json", "s1"), ("x.txt", "zz"), ("b.json", "s2")]).length ∧
    (∀ (name : String) (node : NodeClass String),
      (name, node) ∈ ([("s1", NodeClass.mk "s1"), ("s2", NodeClass.mk "s2")]
        : List (String × NodeClass String)) → name = node.schema) :=
  C8_registry_build_spec (fun s => some s) (fun s => s)
    [("a.json", "s1"), ("x.txt", "zz"), ("b.json", "s2")]
    [("s1", NodeClass.mk "s1"), ("s2", NodeClass.mk "s2")] rfl (by decide)

end ComfyReplicate
